import Mathlib

/-
  Shallow embedding of the OCRA / HOTP core of the python-oath library
  (src/oath/_hotp.py and src/oath/_ocra.py), together with theorems
  settling the specification claims about it.

  Bytes are modelled as `List Nat` with every element < 256; Python byte
  strings, `str` values and the functions acting on them are translated
  function by function.  Fallible Python code (raising ValueError,
  TypeError or struct.error) is modelled with `Except String`, the error
  string recording which kind of exception the Python code raises.
-/

namespace PyOath

/-- A byte string: a list of byte values (each < 256). -/
abbrev Bytes := List Nat

/-- Model of `str.encode('utf8') / encode('ascii')`: code points as bytes.
    Faithful for the ASCII data handled by this library. -/
def strToBytes (s : String) : Bytes :=
  s.toList.map Char.toNat

/-- Hex digit character for a value in [0, 16): lowercase, as Python `'%x'`. -/
def hexDigitChar (n : Nat) : Char :=
  if n < 10 then Char.ofNat (48 + n) else Char.ofNat (87 + n)

/-- Little-endian list of hex digits (empty for 0); the first argument is
    fuel, sufficient whenever it is at least the digit count. -/
def natToHexRevAux : Nat → Nat → List Char
  | _, 0 => []
  | 0, _ + 1 => []
  | fuel + 1, n + 1 => hexDigitChar ((n + 1) % 16) :: natToHexRevAux fuel ((n + 1) / 16)

/-- Little-endian list of hex digits of `n` (empty for 0): `n` itself is
    always enough fuel, since each step at least halves the value. -/
def natToHexRev (n : Nat) : List Char :=
  natToHexRevAux n n

/-- Model of Python `'%x' % n` for a non-negative integer: lowercase
    hexadecimal, no prefix, `"0"` for zero. -/
def pyHex (n : Nat) : String :=
  if n = 0 then "0" else String.mk (natToHexRev n).reverse

/-- Value of one hexadecimal digit character, `none` for anything else. -/
def hexVal (c : Char) : Option Nat :=
  if 48 ≤ c.toNat ∧ c.toNat ≤ 57 then some (c.toNat - 48)
  else if 97 ≤ c.toNat ∧ c.toNat ≤ 102 then some (c.toNat - 87)
  else if 65 ≤ c.toNat ∧ c.toNat ≤ 70 then some (c.toNat - 55)
  else none

/-- Decode a list of hex-digit characters two at a time, as
    `bytes.fromhex` does; `none` models the ValueError it raises on an
    odd count or a non-hex character.  (Real `fromhex` also skips ASCII
    spaces between pairs; no caller in this development produces them.) -/
def fromhexPairs : List Char → Option Bytes
  | [] => some []
  | [_] => none
  | a :: b :: rest =>
    match hexVal a, hexVal b with
    | some x, some y => (fromhexPairs rest).map (fun bs => (x * 16 + y) :: bs)
    | _, _ => none

/-- Model of `_utils.fromhex` (= `bytes.fromhex`). -/
def fromhex (s : String) : Option Bytes :=
  fromhexPairs s.toList

/-- Value of a string of decimal digit characters (Python `int(s)` when
    `s.isdigit()` holds). -/
def pyDigitsToNat (s : String) : Nat :=
  s.toList.foldl (fun a c => 10 * a + (c.toNat - 48)) 0

/-- Model of Python `str.isdigit` (restricted to ASCII): non-empty and
    all decimal digits. -/
def pyIsdigit (s : String) : Bool :=
  s.length != 0 && s.toList.all Char.isDigit

/-- Model of Python `str.isalnum` (restricted to ASCII). -/
def pyIsalnum (s : String) : Bool :=
  s.length != 0 && s.toList.all Char.isAlphanum

/-- Model of `int(s, 16)` succeeding, restricted to plain hex-digit
    strings (real `int` additionally strips whitespace and accepts a sign,
    an `0x` prefix and underscores; such strings then make `bytes.fromhex`
    fail, exactly like the odd-length case covered here). -/
def pyIsHexStr (s : String) : Bool :=
  s.length != 0 && s.toList.all (fun c => (hexVal c).isSome)

/-- The ASCII whitespace `int()` strips from both ends (space, tab,
    newline, carriage return, vertical tab, form feed). -/
def pyIsSpace (c : Char) : Bool :=
  c == ' ' || c == '\t' || c == '\n' || c == '\r' || c.toNat == 11 || c.toNat == 12

/-- The digit grammar of a Python base-10 integer literal after sign and
    whitespace: decimal digits with single underscores allowed between
    digits (`1_0` is accepted; leading, trailing or doubled underscores
    are not). -/
def digitsWithUnderscores : List Char → Bool
  | [] => false
  | [c] => c.isDigit
  | c :: c2 :: rest =>
    c.isDigit &&
      (if c2 == '_' then digitsWithUnderscores rest
       else digitsWithUnderscores (c2 :: rest))

/-- Value of a digit group, underscores dropped. -/
def digitsValue (l : List Char) : Nat :=
  (l.filter (fun c => c != '_')).foldl (fun a c => 10 * a + (c.toNat - 48)) 0

/-- Model of Python `int(s)` (ASCII): surrounding whitespace is stripped,
    then an optional sign and decimal digits with single underscores
    between digits — `int(' 6 ')`, `int('+6')` and `int('1_0')` all
    succeed.  Unicode digits and whitespace are outside the model. -/
def pyIntParse (s : String) : Option Int :=
  let l := ((s.toList.dropWhile pyIsSpace).reverse.dropWhile pyIsSpace).reverse
  match l with
  | '+' :: rest =>
    if digitsWithUnderscores rest then some (digitsValue rest) else none
  | '-' :: rest =>
    if digitsWithUnderscores rest then some (-(digitsValue rest : Int)) else none
  | l2 =>
    if digitsWithUnderscores l2 then some (digitsValue l2) else none

/-- Helper for `pySplitChar`: the accumulated current field is kept in
    reverse. -/
def splitCharAux (sep : Char) : List Char → List Char → List String
  | [], acc => [String.mk acc.reverse]
  | c :: rest, acc =>
    if c = sep then String.mk acc.reverse :: splitCharAux sep rest []
    else splitCharAux sep rest (c :: acc)

/-- Model of Python `s.split(sep)` for a one-character separator (the only
    form the source uses): `"".split(sep) == ['']`, empty fields are
    kept. -/
def pySplitChar (sep : Char) (s : String) : List String :=
  splitCharAux sep s.toList []

/-- `k` bytes of `n` in big-endian order (Python `struct.pack`). -/
def beBytes (k : Nat) (n : Nat) : Bytes :=
  (List.range k).reverse.map (fun i => n / 256 ^ i % 256)

/-- Big-endian value of a byte list (Python `struct.unpack('>I', _)` on a
    4-byte slice). -/
def beUInt (l : Bytes) : Nat :=
  l.foldl (fun acc b => acc * 256 + b) 0

/-- Model of `_hotp.int2beint64` = `struct.pack('>Q', int(i))`: 8 bytes
    big-endian; `none` models the struct.error raised outside [0, 2^64). -/
def int2beint64 (i : Int) : Option Bytes :=
  if 0 ≤ i ∧ i < 2 ^ 64 then some (beBytes 8 i.toNat) else none

/-- Model of `_hotp.truncated_value`: dynamic truncation of RFC 4226.
    The last byte's low 4 bits give an offset, 4 bytes are read big-endian
    from there, and the sign bit is masked off. -/
def truncated_value (h : Bytes) : Nat :=
  let v := h.getLastD 0
  let offset := v &&& 0xF
  let value := beUInt ((h.drop offset).take 4)
  value &&& 0x7FFFFFFF

/-- Model of the Python slice `s[-p:]` (for `p = 0` Python yields the
    whole string, since `-0 == 0`). -/
def pyLastSlice (p : Nat) (s : String) : String :=
  if p = 0 then s else String.mk (s.toList.drop (s.length - p))

/-- Model of `str.zfill`: left-pad with `'0'` to width `w` (no sign
    handling is needed: inputs here are decimal digit strings). -/
def zfill (s : String) (w : Nat) : String :=
  String.mk (List.replicate (w - s.length) '0' ++ s.toList)

/-- Model of `_hotp.dec`: `str(truncated_value(h))[-p:].zfill(p)`. -/
def dec (h : Bytes) (p : Nat) : String :=
  zfill (pyLastSlice p (toString (truncated_value h))) p

/-- Model of `_utils.compare_digest` on two `str` values (the only use in
    the claims): equal length required, then position-wise comparison. -/
def compare_digest (a b : String) : Bool :=
  if a.length != b.length then false
  else (a.toList.zip b.toList).all (fun x => x.1 == x.2)

/-- The callable values reachable through `getattr(hashlib, name)` in
    `str2hashalgo`, as a closed enumeration.  `str2hashalgo` checks only
    `callable(...)`, so besides the digest constructors it accepts the
    module's other callables: the generic `new` factory, `pbkdf2_hmac`,
    `scrypt`, `file_digest` and the private `__get_builtin_constructor`
    helper (modelled by the constructor `get_builtin_constructor`). -/
inductive HashAlgo where
  | md5 | sha1 | sha224 | sha256 | sha384 | sha512
  | sha3_224 | sha3_256 | sha3_384 | sha3_512
  | shake_128 | shake_256 | blake2b | blake2s
  | new | pbkdf2_hmac | scrypt | file_digest | get_builtin_constructor
deriving DecidableEq

/-- Python `algo().digest_size` for each digest algorithm.  The
    non-digest callables carry 0 here: in CPython the attribute access
    `self.P.digest_size` raises AttributeError for every entry of this
    type (see `encodeP`), so the value is never observable in the
    source. -/
def HashAlgo.digest_size : HashAlgo → Nat
  | .md5 => 16 | .sha1 => 20 | .sha224 => 28 | .sha256 => 32
  | .sha384 => 48 | .sha512 => 64
  | .sha3_224 => 28 | .sha3_256 => 32 | .sha3_384 => 48 | .sha3_512 => 64
  | .shake_128 => 0 | .shake_256 => 0 | .blake2b => 64 | .blake2s => 32
  | .new => 0 | .pbkdf2_hmac => 0 | .scrypt => 0 | .file_digest => 0
  | .get_builtin_constructor => 0

/-- CPython's `hash_algo.__name__` for each reachable callable (the
    OpenSSL-backed constructors are named `openssl_*`, `hashlib.new` is
    the function `__hash_new`); used only by the `__str__` methods. -/
def HashAlgo.pyName : HashAlgo → String
  | .md5 => "openssl_md5" | .sha1 => "openssl_sha1"
  | .sha224 => "openssl_sha224" | .sha256 => "openssl_sha256"
  | .sha384 => "openssl_sha384" | .sha512 => "openssl_sha512"
  | .sha3_224 => "openssl_sha3_224" | .sha3_256 => "openssl_sha3_256"
  | .sha3_384 => "openssl_sha3_384" | .sha3_512 => "openssl_sha3_512"
  | .shake_128 => "openssl_shake_128" | .shake_256 => "openssl_shake_256"
  | .blake2b => "blake2b" | .blake2s => "blake2s"
  | .new => "__hash_new" | .pbkdf2_hmac => "pbkdf2_hmac" | .scrypt => "scrypt"
  | .file_digest => "file_digest" | .get_builtin_constructor => "__get_builtin_constructor"

/-- The name-to-value table behind `getattr(hashlib, name)`: every
    attribute of CPython 3.11's hashlib module that is callable (the set
    `str2hashalgo` accepts).  The tail is version dependent — older
    CPythons also export `openssl_*` aliases of the same constructor
    objects, and `file_digest` appeared in 3.11 — but every version's
    table strictly exceeds the digest constructors. -/
def hashlibTable : List (String × HashAlgo) :=
  [("md5", .md5), ("sha1", .sha1), ("sha224", .sha224), ("sha256", .sha256),
   ("sha384", .sha384), ("sha512", .sha512),
   ("sha3_224", .sha3_224), ("sha3_256", .sha3_256), ("sha3_384", .sha3_384),
   ("sha3_512", .sha3_512), ("shake_128", .shake_128), ("shake_256", .shake_256),
   ("blake2b", .blake2b), ("blake2s", .blake2s),
   ("new", .new), ("pbkdf2_hmac", .pbkdf2_hmac), ("scrypt", .scrypt),
   ("file_digest", .file_digest),
   ("__get_builtin_constructor", .get_builtin_constructor)]

/-- The names of the actual digest algorithms (what the specification
    means by a recognized hash-algorithm name); a strict subset of the
    names `str2hashalgo` accepts. -/
def digestConstructorNames : List String :=
  ["md5", "sha1", "sha224", "sha256", "sha384", "sha512",
   "sha3_224", "sha3_256", "sha3_384", "sha3_512",
   "shake_128", "shake_256", "blake2b", "blake2s"]

/-- The lowercase names `str2hashalgo` recognizes: every callable
    attribute of the hashlib module, not only the digest constructors. -/
def recognizedHashNames : List String :=
  hashlibTable.map Prod.fst

/-- Lookup modelling `getattr(hashlib, description.lower(), None)`
    followed by the `callable(algo)` test of `str2hashalgo`: resolution
    among all callable attributes of the module. -/
def lookupHash (s : String) : Option HashAlgo :=
  (hashlibTable.find? (fun p => p.1 == s)).map Prod.snd

/-- Model of `str.lower` (ASCII). -/
def pyLower (s : String) : String :=
  String.mk (s.toList.map Char.toLower)

/-- Model of `_ocra.str2hashalgo`. -/
def str2hashalgo (description : String) : Except String HashAlgo :=
  match lookupHash (pyLower description) with
  | some algo => .ok algo
  | none => .error ("Unknown hash algorithm " ++ description)

/-- Model of `_ocra.CryptoFunction`: a hash algorithm plus a truncation
    length.  The parser only produces lengths in [0, 10]; a Python `None`
    truncation length behaves exactly like 0 (both falsy), so `Nat`
    suffices. -/
structure CryptoFunction where
  hash_algo : HashAlgo
  truncation_length : Nat
deriving DecidableEq

/-- The digest primitives the Python code gets from hmac/hashlib, passed
    in explicitly: `hmac a k m` models `hmac.new(k, m, a).digest()` and
    `hash a d` models `a(d).digest()`. -/
structure HashModel where
  hmac : HashAlgo → Bytes → Bytes → Bytes
  hash : HashAlgo → Bytes → Bytes

/-- Model of `CryptoFunction.__call__`: HMAC then truncate; a truthy
    (non-zero) truncation length selects `dec`, otherwise the full decimal
    string of the truncated value is returned. -/
def CryptoFunction.call (M : HashModel) (cf : CryptoFunction) (key data_input : Bytes) : String :=
  let h := M.hmac cf.hash_algo key data_input
  if cf.truncation_length != 0 then dec h cf.truncation_length
  else toString (truncated_value h)

/-- Model of `CryptoFunction.__str__`:
    `'HOTP-%s-%s' % (self.hash_algo.__name__, self.truncation_length)`. -/
def CryptoFunction.toStr (cf : CryptoFunction) : String :=
  "HOTP-" ++ cf.hash_algo.pyName ++ "-" ++ toString cf.truncation_length

/-- Model of `_ocra.str2cryptofunction`. -/
def str2cryptofunction (d : String) : Except String CryptoFunction :=
  let s := pySplitChar '-' d
  if s.length != 3 then
    .error "CryptoFunction description must be triplet separated by -"
  else if s[0]! != "HOTP" then
    .error ("Unknown CryptoFunction kind " ++ s[0]!)
  else
    match str2hashalgo s[1]! with
    | .error e => .error e
    | .ok algo =>
      match pyIntParse s[2]! with
      | none => .error ("Invalid truncation length " ++ s[2]!)
      | some n =>
        if n < 0 || n > 10 then .error ("Invalid truncation length " ++ s[2]!)
        else .ok ⟨algo, n.toNat⟩

/-- The three challenge kinds of a `Q` data-input descriptor. -/
inductive QKind where
  | N | A | H
deriving DecidableEq, Repr

/-- Python letter of a challenge kind (as stored in the parsed tuple). -/
def QKind.pyLetter : QKind → String
  | .N => "N" | .A => "A" | .H => "H"

/-- Model of `_ocra.DataInput`: the parsed data-input specification.
    `C` is stored as the integer 1 by the parser; `S` and `T` store the
    parsed lengths (possibly 0, which Python then treats as falsy). -/
structure DataInput where
  C : Option Nat := none
  Q : Option (QKind × Nat) := none
  P : Option HashAlgo := none
  S : Option Nat := none
  T : Option Nat := none
deriving DecidableEq

/-- Python truthiness of an optional integer field (`if self.C:` etc.):
    absent or zero is falsy. -/
def pyTruthy : Option Nat → Bool
  | none => false
  | some n => n != 0

/-- The keyword arguments of `DataInput.__call__`, with their Python
    defaults (`None`). -/
structure CallParams where
  C : Option Int := none
  Q : Option String := none
  P : Option String := none
  P_digest : Option Bytes := none
  S : Option String := none
  T : Option Int := none
  T_precomputed : Option Int := none
  Qsc : Option String := none
deriving DecidableEq

/-- The `C` block of `DataInput.__call__`: `int(C)` (a `None` value makes
    `int` raise TypeError, which the bare `except:` turns into the same
    ValueError), range check `C < 0 or C > 2 ** 64`, then
    `int2beint64` outside the `try`, whose struct.error at `2^64` is NOT
    converted to a ValueError. -/
def encodeC (C : Option Int) : Except String Bytes :=
  match C with
  | none => .error "ValueError: Invalid counter value"
  | some c =>
    if c < 0 || c > 2 ^ 64 then .error "ValueError: Invalid counter value"
    else
      match int2beint64 c with
      | some bs => .ok bs
      | none => .error "struct.error"

/-- The `Q` block of `DataInput.__call__`: a `Qsc` argument (mutual
    challenge-response) replaces `Q` and doubles the allowed length; the
    challenge is validated against the declared kind and length, then
    encoded (Numeric: via the hex string of its integer value, padded with
    a trailing `'0'` nibble if of odd length; Alphanumeric: literal bytes;
    Hex: byte-decoded by `fromhex`, which raises on an odd-length string)
    and right-padded with zero bytes relative to length 128. -/
def encodeQ (qspec : QKind × Nat) (Q Qsc : Option String) : Except String Bytes :=
  let effective : Option String × Nat :=
    match Qsc with
    | some qsc => (some qsc, qspec.2 * 2)
    | none => (Q, qspec.2)
  match effective.1 with
  | none => .error "ValueError: challenge"
  | some q =>
    if q.length > effective.2 then .error "ValueError: challenge"
    else if qspec.1 == .N && !pyIsdigit q then .error "ValueError: challenge"
    else if qspec.1 == .A && !pyIsalnum q then .error "ValueError: challenge"
    else if qspec.1 == .H && !pyIsHexStr q then .error "ValueError: challenge"
    else
      let enc : Except String Bytes :=
        match qspec.1 with
        | .N =>
          let hx := pyHex (pyDigitsToNat q)
          let hx := hx ++ String.mk (List.replicate (hx.length % 2) '0')
          match fromhex hx with
          | some bs => .ok bs
          | none => .error "ValueError: fromhex"
        | .A => .ok (strToBytes q)
        | .H =>
          match fromhex q with
          | some bs => .ok bs
          | none => .error "ValueError: fromhex"
      match enc with
      | .ok bs => .ok (bs ++ List.replicate (128 - bs.length) 0)
      | .error e => .error e

/-- Python truthiness of the `P_digest` argument (`if P_digest:`): absent
    or empty is falsy. -/
def pDigestTruthy : Option Bytes → Bool
  | none => false
  | some d => d != []

/-- The `P` block of `DataInput.__call__`: a truthy precomputed digest is
    used raw when its length equals the digest size; at double that length
    the code calls `bytes.fromhex` on a bytes object, which raises
    TypeError in Python 3; other lengths are a ValueError.  Otherwise a
    raw pin is required and hashed.  (In CPython 3 the length checks read
    `self.P.digest_size` on the hashlib constructor, an attribute the
    built-in function does not have, so the whole P_digest path raises
    AttributeError; the model grants it the intended digest size, which
    only enlarges the set of calls that succeed.) -/
def encodeP (M : HashModel) (algo : HashAlgo) (P : Option String) (P_digest : Option Bytes) :
    Except String Bytes :=
  if pDigestTruthy P_digest then
    let dg := P_digest.getD []
    if dg.length = algo.digest_size then .ok dg
    else if dg.length = 2 * algo.digest_size then .error "TypeError: fromhex on bytes"
    else .error "ValueError: Pin/Password digest invalid"
  else
    match P with
    | none => .error "ValueError: Pin/Password missing"
    | some pin => .ok (M.hash algo (strToBytes pin))

/-- The `S` block of `DataInput.__call__`: the session string must have
    exactly the configured length. -/
def encodeS (slen : Nat) (S : Option String) : Except String Bytes :=
  match S with
  | none => .error "ValueError: session"
  | some s => if s.length != slen then .error "ValueError: session" else .ok (strToBytes s)

/-- The `T` block of `DataInput.__call__`: `is_int(T_precomputed)` is
    checked first, and since `is_int` only catches ValueError, an absent
    (None) `T_precomputed` makes `int(None)` raise TypeError before the
    `T` argument is ever examined; the `elif is_int(T)` branch is
    therefore only reachable for non-integer-like `T_precomputed` values
    outside this model (e.g. strings). -/
def encodeT (T T_precomputed : Option Int) : Except String Bytes :=
  match T_precomputed with
  | none => .error "TypeError: int(None)"
  | some tp =>
    match int2beint64 tp with
    | some bs => .ok bs
    | none => .error "struct.error"

/-- Sequence two fallible byte-buffer fragments, concatenating on success;
    the left error wins, matching Python's raise-at-first-failure order. -/
def eApp (a b : Except String Bytes) : Except String Bytes :=
  match a, b with
  | .ok x, .ok y => .ok (x ++ y)
  | .error e, _ => .error e
  | .ok _, .error e => .error e

/-- Model of `DataInput.__call__`: each truthy field of the spec
    validates and appends its encoding in the fixed order C, Q, P, S, T;
    parameters of absent fields are never inspected. -/
def DataInput.encode (M : HashModel) (di : DataInput) (p : CallParams) : Except String Bytes :=
  eApp (eApp (eApp (eApp
    (if pyTruthy di.C then encodeC p.C else .ok [])
    (match di.Q with
     | some qspec => encodeQ qspec p.Q p.Qsc
     | none => .ok []))
    (match di.P with
     | some algo => encodeP M algo p.P p.P_digest
     | none => .ok []))
    (if pyTruthy di.S then encodeS (di.S.getD 0) p.S else .ok []))
    (if pyTruthy di.T then encodeT p.T p.T_precomputed else .ok [])

/-- Model of `DataInput.__str__`.  Beware: the Python code formats
    `DataInput.__class__.__name__`, which is the metaclass name `type`,
    and renders the `Q` tuple and the `P` constructor with Python's
    `str`. -/
def DataInput.toStr (di : DataInput) : String :=
  let sq := String.mk [Char.ofNat 39]
  let values :=
    (match di.C with
     | some n => ["C=" ++ toString n]
     | none => []) ++
    (match di.Q with
     | some (k, n) => ["Q=(" ++ sq ++ k.pyLetter ++ sq ++ ", " ++ toString n ++ ")"]
     | none => []) ++
    (match di.P with
     | some algo => ["P=<built-in function " ++ algo.pyName ++ ">"]
     | none => []) ++
    (match di.S with
     | some n => ["S=" ++ toString n]
     | none => []) ++
    (match di.T with
     | some n => ["T=" ++ toString n]
     | none => [])
  "<type " ++ String.intercalate ", " values ++ ">"

/-- Seconds of one period letter (`PERIODS = {'H': 3600, 'M': 60, 'S': 1}`). -/
def periodSeconds (c : Char) : Option Nat :=
  if c = 'H' then some 3600
  else if c = 'M' then some 60
  else if c = 'S' then some 1
  else none

/-- Parse a `T` descriptor complement as the regex `^(\d+[HMS])+$` does
    (on a non-empty string), yielding the (quantity, period-seconds)
    pairs. -/
def parseTParts (l : List Char) : Option (List (Nat × Nat)) :=
  if l.isEmpty then some []
  else if (l.takeWhile Char.isDigit).isEmpty then none
  else
    match h : l.dropWhile Char.isDigit with
    | [] => none
    | u :: rest2 =>
      match periodSeconds u with
      | none => none
      | some p =>
        (parseTParts rest2).map
          (fun ps => (pyDigitsToNat (String.mk (l.takeWhile Char.isDigit)), p) :: ps)
termination_by l.length
decreasing_by
  have h1 : (l.dropWhile Char.isDigit).length ≤ l.length :=
    (List.dropWhile_sublist (p := Char.isDigit) (l := l)).length_le
  rw [h] at h1
  simp only [List.length_cons] at h1
  omega

/-- One step of `str2datainput`'s loop: parse one dash-separated element
    into the accumulating `DataInput`, rejecting duplicate letters. -/
def str2datainputStep (acc : DataInput) (e : String) : Except String DataInput :=
  match e.toList with
  | [] => .error "IndexError"
  | letter :: tail =>
    let present :=
      (letter == 'C' && acc.C.isSome) || (letter == 'Q' && acc.Q.isSome) ||
      (letter == 'P' && acc.P.isSome) || (letter == 'S' && acc.S.isSome) ||
      (letter == 'T' && acc.T.isSome)
    if present then .error ("ValueError: DataInput already present " ++ e)
    else if letter = 'C' then .ok { acc with C := some 1 }
    else if letter = 'Q' then
      match tail with
      | [] => .ok { acc with Q := some (.N, 8) }
      | second :: lenChars =>
        let kind : Option QKind :=
          if second = 'N' then some .N
          else if second = 'A' then some .A
          else if second = 'H' then some .H
          else none
        match kind with
        | none => .error ("ValueError: Invalid challenge descriptor " ++ e)
        | some k =>
          match pyIntParse (String.mk lenChars) with
          | none => .error ("ValueError: Invalid challenge descriptor " ++ e)
          | some len =>
            if len < 4 || len > 64 then
              .error ("ValueError: Invalid challenge descriptor " ++ e)
            else .ok { acc with Q := some (k, len.toNat) }
    else if letter = 'P' then
      let name := if tail.isEmpty then "SHA1" else String.mk tail
      match str2hashalgo name with
      | .error err => .error err
      | .ok algo => .ok { acc with P := some algo }
    else if letter = 'S' then
      if tail.isEmpty then .ok { acc with S := some 64 }
      else
        match pyIntParse (String.mk tail) with
        | none => .error ("ValueError: Invalid session data descriptor " ++ e)
        | some len => .ok { acc with S := some len.toNat }
    else if letter = 'T' then
      let complement := if tail.isEmpty then ['1', 'M'] else tail
      match parseTParts complement with
      | none => .error ("ValueError: Invalid timestamp descriptor " ++ e)
      | some parts =>
        .ok { acc with T := some (parts.foldl (fun s q => s + q.1 * q.2) 0) }
    else .error ("ValueError: Invalid datainput descriptor " ++ e)

/-- Model of `str2datainput`: fold the dash-separated elements. -/
def str2datainputGo : List String → DataInput → Except String DataInput
  | [], acc => .ok acc
  | e :: rest, acc =>
    match str2datainputStep acc e with
    | .error err => .error err
    | .ok acc2 => str2datainputGo rest acc2

/-- Model of `_ocra.str2datainput`. -/
def str2datainput (d : String) : Except String DataInput :=
  str2datainputGo (pySplitChar '-' d) {}

/-- Model of `_ocra.OcraSuite`: the original descriptor string plus the
    two parsed components. -/
structure OcraSuite where
  ocrasuite_description : String
  crypto_function : CryptoFunction
  data_input : DataInput
deriving DecidableEq

/-- Model of `OcraSuite.__call__` (compute): HMAC over
    `descriptor || 0x00 || encoded data input`. -/
def OcraSuite.call (M : HashModel) (s : OcraSuite) (key : Bytes) (p : CallParams) :
    Except String String :=
  match s.data_input.encode M p with
  | .error e => .error e
  | .ok di => .ok (s.crypto_function.call M key (strToBytes s.ocrasuite_description ++ [0] ++ di))

/-- Model of `OcraSuite.accept`: compute and compare with the constant
    time comparison. -/
def OcraSuite.accept (M : HashModel) (s : OcraSuite) (response : String) (key : Bytes)
    (p : CallParams) : Except String Bool :=
  match s.call M key p with
  | .error e => .error e
  | .ok otp => .ok (compare_digest response otp)

/-- Model of `OcraSuite.__str__` (a debug representation, not a
    descriptor). -/
def OcraSuite.toStr (s : OcraSuite) : String :=
  "<OcraSuite crypto_function:" ++ s.crypto_function.toStr ++
    " data_input:" ++ s.data_input.toStr ++ ">"

/-- Model of `_ocra.str2ocrasuite`. -/
def str2ocrasuite (d : String) : Except String OcraSuite :=
  let elements := pySplitChar ':' d
  if elements.length != 3 then .error ("Bad OcraSuite description " ++ d)
  else if elements[0]! != "OCRA-1" then
    .error ("Unsupported OCRA identifier " ++ elements[0]!)
  else
    match str2cryptofunction elements[1]! with
    | .error e => .error e
    | .ok cf =>
      match str2datainput elements[2]! with
      | .error e => .error e
      | .ok di => .ok ⟨d, cf, di⟩

/-- Outcome of one state-machine method call: a normal return value, a
    raised StateException, a StateException instance RETURNED as the
    value (the `return StateException()` lines of the source), or a
    propagated Python error. -/
inductive Outcome (α : Type) where
  | ok : α → Outcome α
  | raisedStateException : Outcome α
  | returnedStateException : Outcome α
  | raisedError : String → Outcome α
deriving DecidableEq

/-- Session state shared by the challenge-response classes (subclasses of
    `OCRAChallengeResponse`): key, parsed suites, the integer state and
    the challenge fields the methods create.  Fresh sessions start in
    state 1 with no challenge stored. -/
structure ChallengeResponseSession where
  key : Bytes
  ocrasuite : OcraSuite
  remote_ocrasuite : Option OcraSuite := none
  state : Nat := 1
  challenge : Option String := none
  client_challenge : Option String := none
  server_challenge : Option String := none
deriving DecidableEq

/-- Model of `OCRAChallengeResponseServer.compute_challenge`; the random
    challenge that `compute_challenge(Q)` draws is passed in as `rand`.
    Legal only in state 1 (`SERVER_STATE_COMPUTE_CHALLENGE`); otherwise
    `raise StateException()`. -/
def OCRAChallengeResponseServer.compute_challenge (rand : String)
    (s : ChallengeResponseSession) : Outcome String × ChallengeResponseSession :=
  if s.state != 1 then (.raisedStateException, s)
  else (.ok rand, { s with challenge := some rand, state := 2 })

/-- Model of `OCRAChallengeResponseServer.verify_response`.  Legal only in
    state 2 (`SERVER_STATE_VERIFY_RESPONSE`); in any other state the
    source executes `return StateException()`: it RETURNS the exception
    instance instead of raising it. -/
def OCRAChallengeResponseServer.verify_response (M : HashModel)
    (s : ChallengeResponseSession) (response : String) (p : CallParams) :
    Outcome Bool × ChallengeResponseSession :=
  if s.state != 2 then (.returnedStateException, s)
  else
    let os := s.remote_ocrasuite.getD s.ocrasuite
    match os.call M s.key { p with Q := s.challenge } with
    | .error e => (.raisedError e, s)
    | .ok otp =>
      let c := compare_digest otp response
      if c then (.ok c, { s with state := 3 }) else (.ok c, s)

/-- Model of `OCRAMutualChallengeResponseClient.compute_client_challenge`
    (`self.client_challenge = Qc or compute_challenge(...)`); legal only
    in state 1, otherwise `raise StateException()`. -/
def OCRAMutualChallengeResponseClient.compute_client_challenge (rand : String)
    (Qc : Option String) (s : ChallengeResponseSession) :
    Outcome String × ChallengeResponseSession :=
  if s.state != 1 then (.raisedStateException, s)
  else
    let ch :=
      match Qc with
      | some q => if q.length != 0 then q else rand
      | none => rand
    (.ok ch, { s with client_challenge := some ch, state := 2 })

/-- Model of `OCRAMutualChallengeResponseClient.verify_server_response`.
    Legal only in state 2; in any other state the source executes
    `return StateException()`.  The server challenge is stored BEFORE the
    verification, so it survives a mismatch. -/
def OCRAMutualChallengeResponseClient.verify_server_response (M : HashModel)
    (s : ChallengeResponseSession) (response challenge : String) (p : CallParams) :
    Outcome Bool × ChallengeResponseSession :=
  if s.state != 2 then (.returnedStateException, s)
  else
    let s1 := { s with server_challenge := some challenge }
    match s1.client_challenge with
    | none => (.raisedError "AttributeError: challenge not set", s1)
    | some cc =>
      let q := cc ++ challenge
      let os := s1.remote_ocrasuite.getD s1.ocrasuite
      match os.call M s1.key { p with Qsc := some q } with
      | .error e => (.raisedError e, s1)
      | .ok otp =>
        let c := compare_digest otp response
        if c then (.ok c, { s1 with state := 3 }) else (.ok c, s1)

/-- Model of `OCRAMutualChallengeResponseClient.compute_client_response`.
    Legal only in state 3; in any other state the source executes
    `return StateException()`. -/
def OCRAMutualChallengeResponseClient.compute_client_response (M : HashModel)
    (s : ChallengeResponseSession) (p : CallParams) :
    Outcome String × ChallengeResponseSession :=
  if s.state != 3 then (.returnedStateException, s)
  else
    match s.server_challenge, s.client_challenge with
    | some sc, some cc =>
      match s.ocrasuite.call M s.key { p with Qsc := some (sc ++ cc) } with
      | .error e => (.raisedError e, s)
      | .ok rc => (.ok rc, { s with state := 4 })
    | _, _ => (.raisedError "AttributeError: challenge not set", s)

/-- Model of `OCRAMutualChallengeResponseServer.compute_server_response`;
    legal only in state 1, otherwise `raise StateException()`.  Both
    challenges are stored before computing, and pin parameters are
    stripped (`kwargs.pop('P', None)`, `kwargs.pop('P_digest', None)`). -/
def OCRAMutualChallengeResponseServer.compute_server_response (M : HashModel) (rand : String)
    (s : ChallengeResponseSession) (challenge : String) (Qs : Option String) (p : CallParams) :
    Outcome (String × String) × ChallengeResponseSession :=
  if s.state != 1 then (.raisedStateException, s)
  else
    let sc :=
      match Qs with
      | some q => if q.length != 0 then q else rand
      | none => rand
    let s1 := { s with client_challenge := some challenge, server_challenge := some sc }
    let p1 := { p with P := none, P_digest := none }
    match s1.ocrasuite.call M s1.key { p1 with Qsc := some (challenge ++ sc) } with
    | .error e => (.raisedError e, s1)
    | .ok rs => (.ok (rs, sc), { s1 with state := 2 })

/-- Model of `OCRAMutualChallengeResponseServer.verify_client_response`;
    legal only in state 2, otherwise `raise StateException()`. -/
def OCRAMutualChallengeResponseServer.verify_client_response (M : HashModel)
    (s : ChallengeResponseSession) (response : String) (p : CallParams) :
    Outcome Bool × ChallengeResponseSession :=
  if s.state != 2 then (.raisedStateException, s)
  else
    match s.server_challenge, s.client_challenge with
    | some sc, some cc =>
      let os := s.remote_ocrasuite.getD s.ocrasuite
      match os.call M s.key { p with Qsc := some (sc ++ cc) } with
      | .error e => (.raisedError e, s)
      | .ok otp =>
        let c := compare_digest otp response
        if c then (.ok c, { s with state := 3 }) else (.ok c, s)
    | _, _ => (.raisedError "AttributeError: challenge not set", s)

/-- A concrete hash model for witnesses: every digest is twenty 0x01
    bytes (any function of the right shape works, the theorems hold for
    all of them). -/
def M0 : HashModel :=
  ⟨fun _ _ _ => List.replicate 20 1, fun _ _ => List.replicate 20 1⟩

/-- The parsed form of the suite descriptor `OCRA-1:HOTP-SHA1-6:QN08`. -/
def suiteQN08 : OcraSuite :=
  ⟨"OCRA-1:HOTP-SHA1-6:QN08", ⟨.sha1, 6⟩, { Q := some (.N, 8) }⟩

/-- A fresh one-way challenge-response server session over `suiteQN08`
    (state 1, nothing stored yet). -/
def session0 : ChallengeResponseSession :=
  { key := [49, 50], ocrasuite := suiteQN08 }

theorem zip_self_all_eq (l : List Char) :
    ((l.zip l).all fun x => x.1 == x.2) = true := by
  induction l with
  | nil => rfl
  | cons a t ih => simp [List.zip_cons_cons, ih]

theorem compare_digest_self (s : String) : compare_digest s s = true := by
  unfold compare_digest
  simp [zip_self_all_eq]

/-- C1: for every key and every parameter set accepted by a suite's data
    input encoder, verifying the OTP the suite itself computed succeeds:
    `accept(compute(key, params), key, params)` returns `true`. -/
theorem accept_of_call_ok (M : HashModel) (s : OcraSuite) (key : Bytes) (p : CallParams)
    (otp : String) (h : s.call M key p = .ok otp) :
    s.accept M otp key p = .ok true := by
  unfold OcraSuite.accept
  rw [h]
  simp [compare_digest_self]

theorem accept_of_call_ok_witness :
    OcraSuite.accept M0 suiteQN08 "843009" [49, 50] { Q := some "00000000" } = .ok true :=
  accept_of_call_ok M0 suiteQN08 [49, 50] { Q := some "00000000" } "843009" (by rfl)

/-- C3: the counter validation admits the value 2^64 (the code tests
    `C > 2 ** 64`, not `>=`), and at exactly 2^64 the call then dies in
    `struct.pack` with a struct.error instead of the ValueError the
    specification promises for out-of-range counters; its neighbours
    behave as specified. -/
theorem encodeC_boundary :
    encodeC (some ((2 : Int) ^ 64 - 1)) = .ok (beBytes 8 (2 ^ 64 - 1)) ∧
    encodeC (some ((2 : Int) ^ 64)) = .error "struct.error" ∧
    encodeC (some ((2 : Int) ^ 64 + 1)) = .error "ValueError: Invalid counter value" :=
  ⟨rfl, rfl, rfl⟩

/-- C4: out-of-order calls always leave the session state unchanged, but
    they do not all raise the StateException the specification promises:
    `verify_response` (one-way server), `verify_server_response` and
    `compute_client_response` (mutual client) execute
    `return StateException()`, handing the exception instance back as a
    normal — and truthy — return value, while the mutual server's methods
    do raise. -/
theorem state_violation_behaviour :
    OCRAChallengeResponseServer.verify_response M0 session0 "123456" {} =
      (.returnedStateException, session0) ∧
    OCRAMutualChallengeResponseClient.verify_server_response M0 session0 "1" "2" {} =
      (.returnedStateException, session0) ∧
    OCRAMutualChallengeResponseClient.compute_client_response M0 { session0 with state := 2 } {} =
      (.returnedStateException, { session0 with state := 2 }) ∧
    OCRAMutualChallengeResponseServer.verify_client_response M0 session0 "1" {} =
      (.raisedStateException, session0) :=
  ⟨rfl, rfl, rfl, rfl⟩

/-- C8 (as stated): the round trip through `OcraSuite.__str__` fails — the
    string representation is a debug form, not a suite descriptor, so
    re-parsing it raises a ValueError instead of yielding an equal
    suite. -/
theorem str2ocrasuite_toStr_fails :
    str2ocrasuite "OCRA-1:HOTP-SHA1-6:QN08" = .ok suiteQN08 ∧
    str2ocrasuite suiteQN08.toStr =
      .error "Unsupported OCRA identifier <OcraSuite crypto_function" :=
  ⟨rfl, rfl⟩

/-- C8 (amended): parsing the descriptor string stored in a parsed suite
    (`ocrasuite_description`, the faithful serialization the object
    carries) yields a suite equal to the original parse. -/
theorem str2ocrasuite_roundtrip (d : String) (s : OcraSuite)
    (h : str2ocrasuite d = .ok s) :
    str2ocrasuite s.ocrasuite_description = .ok s := by
  have hd : s.ocrasuite_description = d := by
    unfold str2ocrasuite at h
    simp only [] at h
    split at h
    · cases h
    · split at h
      · cases h
      · split at h
        · cases h
        · split at h
          · cases h
          · cases h
            rfl
  rw [hd]
  exact h

theorem str2ocrasuite_roundtrip_witness :
    str2ocrasuite (OcraSuite.ocrasuite_description suiteQN08) = .ok suiteQN08 :=
  str2ocrasuite_roundtrip "OCRA-1:HOTP-SHA1-6:QN08" suiteQN08 (by rfl)

theorem drop_getD (l : Bytes) (n m : Nat) : (l.drop n).getD m 0 = l.getD (n + m) 0 := by
  induction l generalizing n with
  | nil => simp
  | cons a t ih =>
    cases n with
    | zero => simp
    | succ k => simpa [Nat.succ_add] using ih k

theorem take_four (xs : Bytes) (h : 4 ≤ xs.length) :
    xs.take 4 = [xs.getD 0 0, xs.getD 1 0, xs.getD 2 0, xs.getD 3 0] := by
  match xs with
  | [] => simp at h
  | [_] => simp at h
  | [_, _] => simp at h
  | [_, _, _] => simp at h
  | _ :: _ :: _ :: _ :: _ => rfl

theorem mask_and_15 (v : Nat) : v &&& 15 = v % 16 := by
  have h := Nat.and_pow_two_sub_one_eq_mod v 4
  norm_num at h
  exact h

theorem mask_and_31bit (v : Nat) : v &&& 0x7FFFFFFF = v % 2 ^ 31 := by
  have h := Nat.and_pow_two_sub_one_eq_mod v 31
  norm_num at h
  exact h

/-- C6: for a digest of at least 20 bytes, `truncated_value` is the
    31-bit value read as the specification describes: offset = low 4 bits
    of the last byte, 4 bytes big-endian from that offset, bit 31
    cleared. -/
theorem truncated_value_spec (h : Bytes) (hlen : 20 ≤ h.length) :
    truncated_value h < 2 ^ 31 ∧
    truncated_value h =
      (h.getD (h.getLastD 0 % 16) 0 * 2 ^ 24 + h.getD (h.getLastD 0 % 16 + 1) 0 * 2 ^ 16 +
        h.getD (h.getLastD 0 % 16 + 2) 0 * 2 ^ 8 + h.getD (h.getLastD 0 % 16 + 3) 0) % 2 ^ 31 := by
  have ho : h.getLastD 0 &&& 15 < 16 := by
    rw [mask_and_15]
    exact Nat.mod_lt _ (by norm_num)
  have htk : (h.drop (h.getLastD 0 &&& 15)).take 4 =
      [h.getD ((h.getLastD 0 &&& 15) + 0) 0, h.getD ((h.getLastD 0 &&& 15) + 1) 0,
       h.getD ((h.getLastD 0 &&& 15) + 2) 0, h.getD ((h.getLastD 0 &&& 15) + 3) 0] := by
    rw [take_four]
    · simp only [drop_getD]
    · rw [List.length_drop]
      omega
  unfold truncated_value
  simp only []
  rw [htk, mask_and_31bit]
  constructor
  · exact Nat.mod_lt _ (by norm_num)
  · rw [mask_and_15]
    simp only [beUInt, List.foldl, Nat.add_zero]
    ring_nf

theorem zfill_length (s : String) (w : Nat) : (zfill s w).length = max w s.length := by
  show (List.replicate (w - s.length) '0' ++ s.toList).length = max w s.length
  rw [List.length_append, List.length_replicate]
  have hts : s.toList.length = s.length := rfl
  omega

theorem pyLastSlice_length_le (p : Nat) (s : String) (hp : p ≠ 0) :
    (pyLastSlice p s).length ≤ p := by
  unfold pyLastSlice
  rw [if_neg hp]
  show (s.toList.drop (s.length - p)).length ≤ p
  rw [List.length_drop]
  have hts : s.toList.length = s.length := rfl
  omega

/-- C7: with truncation length 0 the computed OTP is the full decimal
    string of the truncated value; with truncation length in [1, 10] it
    has exactly that many characters and equals the last characters of the
    decimal string, left-padded with '0'. -/
theorem crypto_function_call_spec (M : HashModel) (cf : CryptoFunction) (key msg : Bytes) :
    (cf.truncation_length = 0 →
      cf.call M key msg = toString (truncated_value (M.hmac cf.hash_algo key msg))) ∧
    (1 ≤ cf.truncation_length → cf.truncation_length ≤ 10 →
      (cf.call M key msg).length = cf.truncation_length ∧
      cf.call M key msg =
        zfill (pyLastSlice cf.truncation_length
          (toString (truncated_value (M.hmac cf.hash_algo key msg)))) cf.truncation_length) := by
  unfold CryptoFunction.call
  simp only []
  constructor
  · intro h0
    rw [h0]
    simp
  · intro h1 _
    have hne : (cf.truncation_length != 0) = true := by
      simp only [bne_iff_ne, ne_eq]
      omega
    rw [hne]
    simp only [if_true]
    refine ⟨?_, rfl⟩
    unfold dec
    rw [zfill_length]
    have hle := pyLastSlice_length_le cf.truncation_length
      (toString (truncated_value (M.hmac cf.hash_algo key msg))) (by omega)
    omega

theorem truncated_value_spec_witness :
    truncated_value (List.replicate 20 1) < 2 ^ 31 :=
  (truncated_value_spec (List.replicate 20 1) (by norm_num)).1

theorem encodeQ_numeric_value_only (maxlen : Nat) (Q1 Q2 : String)
    (h1 : pyIsdigit Q1 = true) (h2 : pyIsdigit Q2 = true)
    (hl1 : Q1.length ≤ maxlen) (hl2 : Q2.length ≤ maxlen)
    (hv : pyDigitsToNat Q1 = pyDigitsToNat Q2) :
    encodeQ (.N, maxlen) (some Q1) none = encodeQ (.N, maxlen) (some Q2) none := by
  unfold encodeQ
  simp only [Nat.not_lt.mpr hl1, Nat.not_lt.mpr hl2, h1, h2, if_false, Bool.not_true,
    Bool.and_false, beq_self_eq_true, Bool.true_and, Bool.false_eq_true,
    show (QKind.N == QKind.A) = false from rfl, show (QKind.N == QKind.H) = false from rfl,
    Bool.false_and]
  rw [hv]

/-- C9: two Numeric challenge strings denoting the same integer (for
    example differing only in leading zeros) produce byte-identical
    data-input buffers, hence the same OTP for every key: the Numeric
    encoding depends only on the challenge's integer value. -/
theorem numeric_challenge_value_only (maxlen : Nat) (Q1 Q2 : String)
    (h1 : pyIsdigit Q1 = true) (h2 : pyIsdigit Q2 = true)
    (hl1 : Q1.length ≤ maxlen) (hl2 : Q2.length ≤ maxlen)
    (hv : pyDigitsToNat Q1 = pyDigitsToNat Q2)
    (M : HashModel) (suite : OcraSuite) (key : Bytes) (p : CallParams)
    (hq : suite.data_input.Q = some (.N, maxlen)) :
    suite.data_input.encode M { p with Q := some Q1, Qsc := none } =
      suite.data_input.encode M { p with Q := some Q2, Qsc := none } ∧
    suite.call M key { p with Q := some Q1, Qsc := none } =
      suite.call M key { p with Q := some Q2, Qsc := none } := by
  have he := encodeQ_numeric_value_only maxlen Q1 Q2 h1 h2 hl1 hl2 hv
  have henc : suite.data_input.encode M { p with Q := some Q1, Qsc := none } =
      suite.data_input.encode M { p with Q := some Q2, Qsc := none } := by
    unfold DataInput.encode
    rw [hq]
    simp only []
    rw [he]
  refine ⟨henc, ?_⟩
  unfold OcraSuite.call
  rw [henc]

theorem numeric_challenge_value_only_witness :
    suiteQN08.call M0 [49, 50] { Q := some "0", Qsc := none } =
      suiteQN08.call M0 [49, 50] { Q := some "00000000", Qsc := none } := by
  have h := numeric_challenge_value_only 8 "0" "00000000" (by decide) (by decide)
    (by decide) (by decide) (by decide) M0 suiteQN08 [49, 50] {} (by rfl)
  exact h.2

/-- C10: parameters passed for fields absent from (or falsy in) the
    parsed DataInput spec are silently ignored: two parameter sets that
    agree on every field the spec actually uses produce identical
    results — same byte buffer on success, same error otherwise. -/
theorem encode_ignores_absent (M : HashModel) (di : DataInput) (p1 p2 : CallParams)
    (hC : pyTruthy di.C = true → p1.C = p2.C)
    (hQ : di.Q.isSome = true → p1.Q = p2.Q ∧ p1.Qsc = p2.Qsc)
    (hP : di.P.isSome = true → p1.P = p2.P ∧ p1.P_digest = p2.P_digest)
    (hS : pyTruthy di.S = true → p1.S = p2.S)
    (hT : pyTruthy di.T = true → p1.T = p2.T ∧ p1.T_precomputed = p2.T_precomputed) :
    di.encode M p1 = di.encode M p2 := by
  unfold DataInput.encode
  have hc : (if pyTruthy di.C then encodeC p1.C else .ok []) =
      (if pyTruthy di.C then encodeC p2.C else .ok []) := by
    cases h : pyTruthy di.C with
    | false => rfl
    | true => rw [hC h]
  have hq : (match di.Q with
      | some qspec => encodeQ qspec p1.Q p1.Qsc
      | none => Except.ok []) =
      (match di.Q with
      | some qspec => encodeQ qspec p2.Q p2.Qsc
      | none => Except.ok []) := by
    cases h : di.Q with
    | none => rfl
    | some qspec =>
      have h2 := hQ (by rw [h]; rfl)
      rw [h2.1, h2.2]
  have hp : (match di.P with
      | some algo => encodeP M algo p1.P p1.P_digest
      | none => Except.ok []) =
      (match di.P with
      | some algo => encodeP M algo p2.P p2.P_digest
      | none => Except.ok []) := by
    cases h : di.P with
    | none => rfl
    | some algo =>
      have h2 := hP (by rw [h]; rfl)
      rw [h2.1, h2.2]
  have hs : (if pyTruthy di.S then encodeS (di.S.getD 0) p1.S else .ok []) =
      (if pyTruthy di.S then encodeS (di.S.getD 0) p2.S else .ok []) := by
    cases h : pyTruthy di.S with
    | false => rfl
    | true => rw [hS h]
  have ht : (if pyTruthy di.T then encodeT p1.T p1.T_precomputed else .ok []) =
      (if pyTruthy di.T then encodeT p2.T p2.T_precomputed else .ok []) := by
    cases h : pyTruthy di.T with
    | false => rfl
    | true =>
      have h2 := hT h
      rw [h2.1, h2.2]
  rw [hc, hq, hp, hs, ht]

theorem encode_ignores_absent_witness :
    DataInput.encode M0 { Q := some (.N, 8) } { Q := some "00000000", C := some 5 } =
      DataInput.encode M0 { Q := some (.N, 8) } { Q := some "00000000" } :=
  encode_ignores_absent M0 { Q := some (.N, 8) }
    { Q := some "00000000", C := some 5 } { Q := some "00000000" }
    (by decide) (fun _ => by exact ⟨rfl, rfl⟩) (by decide) (by decide) (by decide)

theorem fromhexPairs_length (l : List Char) (bs : Bytes) (h : fromhexPairs l = some bs) :
    l.length = 2 * bs.length := by
  induction l using fromhexPairs.induct generalizing bs with
  | case1 =>
    simp [fromhexPairs] at h
    subst h
    rfl
  | case2 a => simp [fromhexPairs] at h
  | case3 a b rest x y hx hy ih =>
    simp only [fromhexPairs, hx, hy, Option.map_eq_some'] at h
    obtain ⟨bs2, hbs2, hcons⟩ := h
    subst hcons
    simp only [List.length_cons]
    rw [ih bs2 hbs2]
    ring
  | case4 a b rest hfail =>
    rcases ha : hexVal a with _ | x
    · simp [fromhexPairs, ha] at h
    · rcases hb : hexVal b with _ | y
      · simp [fromhexPairs, ha, hb] at h
      · exact (hfail x y ha hb).elim

theorem fromhex_length (s : String) (bs : Bytes) (h : fromhex s = some bs) :
    s.length = 2 * bs.length :=
  fromhexPairs_length s.toList bs h

theorem char_digit_toNat_le (c : Char) (h : c.isDigit = true) :
    48 ≤ c.toNat ∧ c.toNat ≤ 57 := by
  simp [Char.isDigit] at h
  obtain ⟨h1, h2⟩ := h
  exact ⟨by exact_mod_cast h1, by exact_mod_cast h2⟩

theorem foldl_digits_lt (l : List Char) (acc : Nat) (hd : ∀ c ∈ l, c.isDigit = true) :
    l.foldl (fun a c => 10 * a + (c.toNat - 48)) acc < (acc + 1) * 10 ^ l.length := by
  induction l generalizing acc with
  | nil => simp
  | cons c t ih =>
    simp only [List.foldl_cons, List.length_cons]
    have hc := char_digit_toNat_le c (hd c (by simp))
    have h2 := ih (10 * acc + (c.toNat - 48)) (fun x hx => hd x (by simp [hx]))
    have h3 : (10 * acc + (c.toNat - 48) + 1) * 10 ^ t.length ≤ (acc + 1) * 10 ^ (t.length + 1) := by
      rw [Nat.pow_succ]
      calc (10 * acc + (c.toNat - 48) + 1) * 10 ^ t.length
          ≤ ((acc + 1) * 10) * 10 ^ t.length := Nat.mul_le_mul (by omega) (Nat.le_refl _)
        _ = (acc + 1) * (10 ^ t.length * 10) := by ring
    exact lt_of_lt_of_le h2 h3

theorem pyDigitsToNat_lt (s : String) (hd : s.toList.all Char.isDigit = true) :
    pyDigitsToNat s < 10 ^ s.length := by
  have h := foldl_digits_lt s.toList 0 (by simpa [List.all_eq_true] using hd)
  simpa [pyDigitsToNat] using h

theorem natToHexRevAux_length_le (f n k : Nat) (h : n < 16 ^ k) :
    (natToHexRevAux f n).length ≤ k := by
  induction f generalizing n k with
  | zero => cases n <;> simp [natToHexRevAux]
  | succ f ih =>
    cases n with
    | zero => simp [natToHexRevAux]
    | succ m =>
      cases k with
      | zero => simp at h
      | succ k =>
        simp only [natToHexRevAux, List.length_cons]
        have h2 : (m + 1) / 16 < 16 ^ k := by
          rw [Nat.div_lt_iff_lt_mul (by norm_num)]
          calc m + 1 < 16 ^ (k + 1) := h
            _ = 16 ^ k * 16 := by rw [Nat.pow_succ]
        exact Nat.succ_le_succ (ih _ _ h2)

theorem pyHex_length_le (n k : Nat) (hn : n < 16 ^ k) (hk : 1 ≤ k) :
    (pyHex n).length ≤ k := by
  unfold pyHex
  split
  · simpa using hk
  · show (natToHexRev n).reverse.length ≤ k
    rw [List.length_reverse]
    exact natToHexRevAux_length_le n n k hn

theorem append_pad_length (bs : Bytes) (hle : bs.length ≤ 128) :
    (bs ++ List.replicate (128 - bs.length) 0).length = 128 := by
  rw [List.length_append, List.length_replicate]
  omega

/-- C2 (as stated) fails: the odd-length hex challenge `"abc"` passes the
    declared-kind validation of a `QH04` spec (it is valid hex of length
    at most 4, unlike `"xyz"`, which the validation itself rejects) but
    then `bytes.fromhex` raises on it, so no 128-byte block is produced
    at all; the even-length `"abcd"` encodes to exactly 128 bytes. -/
theorem encodeQ_hex_odd_counterexample :
    encodeQ (.H, 4) (some "abc") none = .error "ValueError: fromhex" ∧
    encodeQ (.H, 4) (some "xyz") none = .error "ValueError: challenge" ∧
    encodeQ (.H, 4) (some "abcd") none = .ok ([171, 205] ++ List.replicate 126 0) :=
  ⟨rfl, rfl, rfl⟩

/-- C2 (amended): whenever the challenge block is actually produced —
    validation passes and, for Hex challenges, the byte-decoding
    succeeds (an odd-length hex challenge passes validation but then
    fails with an error instead) — it is exactly 128 bytes, for every
    spec max length in the parser's range (at most 64) and for both the
    plain and the doubled mutual-challenge paths. -/
theorem encodeQ_ok_length (kind : QKind) (mx : Nat) (Q Qsc : Option String) (bs : Bytes)
    (hmax : mx ≤ 64) (h : encodeQ (kind, mx) Q Qsc = .ok bs) : bs.length = 128 := by
  unfold encodeQ at h
  have hcore : ∀ (q : String) (maxEff : Nat), maxEff ≤ 128 →
      (if q.length > maxEff then (.error "ValueError: challenge" : Except String Bytes)
       else if kind == .N && !pyIsdigit q then .error "ValueError: challenge"
       else if kind == .A && !pyIsalnum q then .error "ValueError: challenge"
       else if kind == .H && !pyIsHexStr q then .error "ValueError: challenge"
       else
         match
           (match kind with
            | .N =>
              match fromhex (pyHex (pyDigitsToNat q) ++
                  String.mk (List.replicate ((pyHex (pyDigitsToNat q)).length % 2) '0')) with
              | some bs2 => (.ok bs2 : Except String Bytes)
              | none => .error "ValueError: fromhex"
            | .A => .ok (strToBytes q)
            | .H =>
              match fromhex q with
              | some bs2 => .ok bs2
              | none => .error "ValueError: fromhex") with
         | .ok bs2 => .ok (bs2 ++ List.replicate (128 - bs2.length) 0)
         | .error e => .error e) = .ok bs → bs.length = 128 := by
    intro q maxEff hme hq
    split at hq
    · exact absurd hq (by simp)
    · split at hq
      · exact absurd hq (by simp)
      · split at hq
        · exact absurd hq (by simp)
        · split at hq
          · exact absurd hq (by simp)
          · rename_i hlen hN hA hH
            have hqlen : q.length ≤ 128 := by omega
            cases kind with
            | N =>
              have hdig : pyIsdigit q = true := by
                simpa using hN
              rcases hfh : fromhex (pyHex (pyDigitsToNat q) ++
                  String.mk (List.replicate ((pyHex (pyDigitsToNat q)).length % 2) '0'))
                  with _ | bs2
              · rw [hfh] at hq
                exact absurd hq (by simp)
              · rw [hfh] at hq
                simp only [Except.ok.injEq] at hq
                subst hq
                apply append_pad_length
                have hv : pyDigitsToNat q < 16 ^ 128 := by
                  calc pyDigitsToNat q < 10 ^ q.length :=
                        pyDigitsToNat_lt q (by
                          unfold pyIsdigit at hdig
                          simp only [Bool.and_eq_true] at hdig
                          exact hdig.2)
                    _ ≤ 10 ^ 128 := Nat.pow_le_pow_right (by norm_num) hqlen
                    _ ≤ 16 ^ 128 := Nat.pow_le_pow_left (by norm_num) _
                have hhx : (pyHex (pyDigitsToNat q)).length ≤ 128 :=
                  pyHex_length_le _ 128 hv (by norm_num)
                have hlen2 : (pyHex (pyDigitsToNat q) ++
                    String.mk (List.replicate ((pyHex (pyDigitsToNat q)).length % 2) '0')).length =
                    (pyHex (pyDigitsToNat q)).length + (pyHex (pyDigitsToNat q)).length % 2 := by
                  rw [String.length_append]
                  congr 1
                  show (List.replicate ((pyHex (pyDigitsToNat q)).length % 2) '0').length = _
                  rw [List.length_replicate]
                have hfl := fromhex_length _ bs2 hfh
                rw [hlen2] at hfl
                omega
            | A =>
              simp only [Except.ok.injEq] at hq
              subst hq
              apply append_pad_length
              show (q.toList.map Char.toNat).length ≤ 128
              rw [List.length_map]
              exact hqlen
            | H =>
              rcases hfh : fromhex q with _ | bs2
              · rw [hfh] at hq
                exact absurd hq (by simp)
              · rw [hfh] at hq
                simp only [Except.ok.injEq] at hq
                subst hq
                apply append_pad_length
                have hfl := fromhex_length _ bs2 hfh
                omega
  rcases Qsc with _ | qsc
  · rcases Q with _ | q
    · exact absurd h (by simp)
    · exact hcore q mx (by omega) h
  · exact hcore qsc (mx * 2) (by omega) h

theorem encodeQ_ok_length_witness :
    ((0 : Nat) :: List.replicate 127 0).length = 128 :=
  encodeQ_ok_length .N 8 (some "00000000") none ((0 : Nat) :: List.replicate 127 0)
    (by norm_num) (by rfl)

theorem lookupHash_isSome_iff (s : String) :
    (lookupHash s).isSome = true ↔ s ∈ recognizedHashNames := by
  unfold lookupHash recognizedHashNames
  rw [Option.isSome_map', List.find?_isSome]
  constructor
  · rintro ⟨p, hp, hpe⟩
    rw [List.mem_map]
    exact ⟨p, hp, by simpa using hpe⟩
  · intro hm
    obtain ⟨p, hp, hfst⟩ := List.mem_map.mp hm
    exact ⟨p, hp, by simp [hfst]⟩

theorem str2hashalgo_ok_iff (s : String) :
    (∃ a, str2hashalgo s = .ok a) ↔ pyLower s ∈ recognizedHashNames := by
  unfold str2hashalgo
  rcases h : lookupHash (pyLower s) with _ | a
  · constructor
    · rintro ⟨a, ha⟩
      simp at ha
    · intro hm
      have h2 := (lookupHash_isSome_iff (pyLower s)).mpr hm
      rw [h] at h2
      simp at h2
  · constructor
    · intro _
      exact (lookupHash_isSome_iff (pyLower s)).mp (by rw [h]; rfl)
    · intro _
      exact ⟨a, rfl⟩

theorem str2cryptofunction_fails_iff (d : String) :
    (∃ cf, str2cryptofunction d = .ok cf) ↔
      ((pySplitChar '-' d).length = 3 ∧ (pySplitChar '-' d)[0]! = "HOTP" ∧
       pyLower ((pySplitChar '-' d)[1]!) ∈ recognizedHashNames ∧
       ∃ n : Int, pyIntParse ((pySplitChar '-' d)[2]!) = some n ∧ 0 ≤ n ∧ n ≤ 10) := by
  unfold str2cryptofunction
  simp only []
  by_cases h1 : (pySplitChar '-' d).length = 3
  case neg =>
    rw [if_pos (by simpa using h1)]
    simp [h1]
  case pos =>
    rw [if_neg (by simp [h1])]
    by_cases h2 : (pySplitChar '-' d)[0]! = "HOTP"
    case neg =>
      rw [if_pos (by simpa using h2)]
      simp [h2]
    case pos =>
      rw [if_neg (by simp [h2])]
      rcases h3 : str2hashalgo ((pySplitChar '-' d)[1]!) with e | algo
      · simp only []
        constructor
        · rintro ⟨cf, hcf⟩
          simp at hcf
        · rintro ⟨-, -, hmem, -⟩
          obtain ⟨a, ha⟩ := (str2hashalgo_ok_iff _).mpr hmem
          rw [h3] at ha
          simp at ha
      · simp only []
        rcases h4 : pyIntParse ((pySplitChar '-' d)[2]!) with _ | n
        · simp only []
          constructor
          · rintro ⟨cf, hcf⟩
            simp at hcf
          · rintro ⟨-, -, -, n, hn, -⟩
            simp at hn
        · simp only []
          by_cases h5 : n < 0 ∨ n > 10
          case pos =>
            rw [if_pos (by simpa using h5)]
            constructor
            · rintro ⟨cf, hcf⟩
              simp at hcf
            · rintro ⟨-, -, -, m, hm, hm0, hm10⟩
              injection hm with hm
              omega
          case neg =>
            rw [if_neg (by simpa using h5)]
            constructor
            · rintro -
              exact ⟨h1, h2, (str2hashalgo_ok_iff _).mp ⟨algo, h3⟩, n, rfl, by omega, by omega⟩
            · rintro -
              exact ⟨⟨algo, n.toNat⟩, rfl⟩

theorem str2cryptofunction_ok_value (d : String) (cf : CryptoFunction)
    (h : str2cryptofunction d = .ok cf) :
    str2hashalgo ((pySplitChar '-' d)[1]!) = .ok cf.hash_algo ∧
    ∃ n : Int, pyIntParse ((pySplitChar '-' d)[2]!) = some n ∧
      (cf.truncation_length : Int) = n := by
  unfold str2cryptofunction at h
  simp only [] at h
  split at h
  · cases h
  · split at h
    · cases h
    · split at h
      · cases h
      · rename_i algo helgo
        split at h
        · cases h
        · rename_i n hn
          split at h
          · cases h
          · rename_i hrange
            injection h with h
            subst h
            refine ⟨helgo, n, hn, ?_⟩
            simp only [Bool.or_eq_true, decide_eq_true_eq, not_or] at hrange
            show ((n.toNat : Nat) : Int) = n
            omega

/-- C5 (as stated) fails: `str2hashalgo` checks only that
    `getattr(hashlib, name.lower())` is callable, so the descriptor
    `HOTP-NEW-6` parses successfully even though `new` — hashlib's
    generic construct-by-name factory — is not a hash-algorithm name;
    likewise `int()` accepts forms such as `' 6'` beyond the bare digit
    strings.  The digest-algorithm names are a strict subset of what the
    parser accepts. -/
theorem str2cryptofunction_new_counterexample :
    str2cryptofunction "HOTP-NEW-6" = .ok ⟨.new, 6⟩ ∧
    "new" ∉ digestConstructorNames ∧
    str2cryptofunction "HOTP-SHA1- 6" = .ok ⟨.sha1, 6⟩ ∧
    (∀ a ∈ digestConstructorNames, a ∈ recognizedHashNames) :=
  ⟨rfl, by decide, rfl, by decide⟩

/-- C5 (amended): parsing a crypto-function descriptor string succeeds
    exactly when it has three dash-separated fields, the first is `HOTP`,
    the second, lowercased, is the name of a callable attribute of the
    hashlib module — a set that strictly contains the hash-algorithm
    names, also admitting the non-digest callables `new`, `pbkdf2_hmac`,
    `scrypt`, `file_digest` and a private helper — and the third parses
    as a Python integer in [0, 10] (surrounding whitespace and digit
    underscores included); in every other case a ValueError is raised,
    and on success the result carries exactly that attribute and that
    truncation length. -/
theorem str2cryptofunction_ok_iff (d : String) :
    ((∃ cf, str2cryptofunction d = .ok cf) ↔
      ((pySplitChar '-' d).length = 3 ∧ (pySplitChar '-' d)[0]! = "HOTP" ∧
       pyLower ((pySplitChar '-' d)[1]!) ∈ recognizedHashNames ∧
       ∃ n : Int, pyIntParse ((pySplitChar '-' d)[2]!) = some n ∧ 0 ≤ n ∧ n ≤ 10)) ∧
    (∀ cf, str2cryptofunction d = .ok cf →
      str2hashalgo ((pySplitChar '-' d)[1]!) = .ok cf.hash_algo ∧
      ∃ n : Int, pyIntParse ((pySplitChar '-' d)[2]!) = some n ∧
        (cf.truncation_length : Int) = n) :=
  ⟨str2cryptofunction_fails_iff d, fun cf h => str2cryptofunction_ok_value d cf h⟩

end PyOath
